import Mathlib

/-!
Shallow embedding of the session event generator of
`src/events/simulate_playback_events.py` (the `EventGenerator` class and the
`PlaybackEvent` dataclass), together with proofs of the specification's
properties about it.

Modelling conventions:
* Python `datetime` values are modelled as natural numbers (seconds); the
  generator only ever compares timestamps and adds second-valued
  `timedelta`s to them, so this is faithful for every claim below.
* Python's global `random` module is modelled as an explicit stream
  `rnd : Nat → Nat` together with a cursor `k` that is advanced by one for
  each call into the random module.  `random.randint(a, b)` becomes
  `a + rnd k % (b - a + 1)`, which realises exactly the inclusive range
  `[a, b]`; `random.choice(l)` indexes `l` at `rnd k % l.length` and, like
  Python, fails on an empty population.
* `uuid.uuid4()` does not consume `random`-module state; event/user/book
  identifiers are modelled as strings derived from the cursor position.
  No claim depends on their exact shape.
* Python exceptions (the `ValueError` of `PlaybackEvent.__post_init__`, the
  `ZeroDivisionError` of `position // (duration // chapters)`, and the
  `IndexError` of `random.choice([])`) are modelled by `Option`/`Except`
  results: `none`/`error` means the Python code raises.
* The unbounded `while` loop of `generate_events` is modelled with explicit
  fuel; `none` on every fuel amount corresponds to divergence.
-/

namespace AudioSim

/-- Event metadata: device type, app version, network type
(`metadata` dict of the source). -/
structure Metadata where
  device_type : String
  app_version : String
  network_type : String
deriving Repr, DecidableEq

/-- The `AudioBook` dataclass: identity plus duration (seconds) and chapter
count. `duration` and `chapters` are non-negative integers in the source
(`random.randint` of positive bounds); we carry them as `Nat`. -/
structure AudioBook where
  book_id : String
  title : String
  author : String
  duration : Nat
  chapters : Nat
  genre : String
deriving Repr, DecidableEq

/-- The `User` dataclass.  The `preferences` dict (a float-valued
`preferred_speed` and two sampled genres) is carried opaquely as the list of
preferred genres; no claim concerns preferences. -/
structure User where
  user_id : String
  preferred_genres : List String
deriving Repr, DecidableEq

/-- The `PlaybackEvent` dataclass. -/
structure PlaybackEvent where
  event_id : String
  user_id : String
  book_id : String
  event_type : String
  timestamp : Nat
  position : Nat
  chapter : Nat
  metadata : Metadata
deriving Repr, DecidableEq

/-- The five valid event types (`VALID_EVENT_TYPES` /
`valid_event_types` of `PlaybackEvent.__post_init__`). -/
def validEventTypes : List String :=
  ["START_PLAYBACK", "PAUSE", "RESUME", "SEEK", "END_PLAYBACK"]

/-- Validating construction of a `PlaybackEvent`
(`__post_init__`): raises `ValueError` — modelled as `Except.error` — when
`event_type` is not one of the five valid types, otherwise yields the
fully-constructed event unchanged. -/
def mkPlaybackEvent (event_id user_id book_id event_type : String)
    (timestamp position chapter : Nat) (metadata : Metadata) :
    Except String PlaybackEvent :=
  if event_type ∈ validEventTypes then
    Except.ok ⟨event_id, user_id, book_id, event_type, timestamp, position,
      chapter, metadata⟩
  else
    Except.error ("Invalid event type: " ++ event_type)

/-- Python `random.randint(a, b)`: uniform integer in the inclusive range `[a, b]`,
drawn at cursor `k` of the stream `rnd`. -/
def randint (rnd : Nat → Nat) (k a b : Nat) : Nat :=
  a + rnd k % (b - a + 1)

/-- Python `random.choice(l)` for nonempty `l`; `none` models the `IndexError`
Python raises on an empty population. -/
def choice? {α : Type} (rnd : Nat → Nat) (k : Nat) (l : List α) : Option α :=
  l.get? (rnd k % l.length)

/-- Python `random.choice(l)` where the call site guarantees `l` is a nonempty
literal; `d` is returned in the (unreachable) empty case. -/
def choiceD {α : Type} (rnd : Nat → Nat) (k : Nat) (d : α) (l : List α) : α :=
  l.getD (rnd k % l.length) d

/-- The metadata dict built at every event-construction site: two
`random.choice` draws (device type at `k`, network type at `k+1`) and the
constant app version. -/
def pickMetadata (rnd : Nat → Nat) (k : Nat) : Metadata :=
  { device_type := choiceD rnd k "mobile" ["mobile", "tablet", "desktop"]
    app_version := "1.0.0"
    network_type := choiceD rnd (k + 1) "wifi" ["wifi", "cellular", "ethernet"] }

/-- The formula `chapter = min(book.chapters, 1 + position // (duration // chapters))`
(line 217 of the source).  Python raises `ZeroDivisionError` when the inner
quotient `duration // chapters` is zero (which happens exactly when
`chapters > duration`, and also when `chapters = 0`); this is modelled by
`none`. -/
def chapterCalc (duration chapters position : Nat) : Option Nat :=
  if duration / chapters = 0 then none
  else some (min chapters (1 + position / (duration / chapters)))

/-- State threaded through the event loop of `generate_user_session`:
the events emitted so far (in order), `current_position`,
`current_chapter`, `current_time`, `last_event_type`, and the random
cursor. -/
structure SessState where
  events : List PlaybackEvent
  position : Nat
  chapter : Nat
  time : Nat
  lastType : String
  k : Nat
deriving Repr

/-- The `if`/`elif` chain at the top of the loop body: the allowed next
event type as a function of `last_event_type` (one `random.choice` draw when
there are two options), or `none` for the `break` of the final `else`
branch (taken for `END_PLAYBACK` and any other unlisted value). -/
def nextTypeChoice (rnd : Nat → Nat) (k : Nat) (lastType : String) :
    Option (String × Nat) :=
  if lastType = "START_PLAYBACK" then
    some (choiceD rnd k "PAUSE" ["PAUSE", "SEEK"], k + 1)
  else if lastType = "PAUSE" then
    some ("RESUME", k)
  else if lastType = "RESUME" then
    some (choiceD rnd k "PAUSE" ["PAUSE", "SEEK"], k + 1)
  else if lastType = "SEEK" then
    some ("PAUSE", k)
  else
    none

/-- One iteration of the `for` loop of `generate_user_session`
(lines 194–234 of the source).  Once `last_event_type` is `END_PLAYBACK`
the Python loop `break`s; we model the remaining iterations as the
identity, which emits the same events.  The outer `none` models the
`ZeroDivisionError` of the chapter computation. -/
def sessionStep (user : User) (book : AudioBook) (rnd : Nat → Nat)
    (s : SessState) : Option SessState :=
  match nextTypeChoice rnd s.k s.lastType with
  | none => some s
  | some (ty0, k1) =>
    let time1 := s.time + randint rnd k1 30 300
    let pos0 := if ty0 = "SEEK" then randint rnd (k1 + 1) 0 book.duration
                else s.position + randint rnd (k1 + 1) 30 300
    let k2 := k1 + 2
    let ty1 := if book.duration < pos0 then "END_PLAYBACK" else ty0
    let pos1 := if book.duration < pos0 then book.duration else pos0
    match chapterCalc book.duration book.chapters pos1 with
    | none => none
    | some chap =>
      some { events := s.events ++
               [{ event_id := "event_" ++ toString k2
                  user_id := user.user_id
                  book_id := book.book_id
                  event_type := ty1
                  timestamp := time1
                  position := pos1
                  chapter := chap
                  metadata := pickMetadata rnd k2 }]
             position := pos1
             chapter := chap
             time := time1
             lastType := ty1
             k := k2 + 2 }

/-- Running `n` iterations of the loop body. -/
def runLoop (user : User) (book : AudioBook) (rnd : Nat → Nat) :
    Nat → SessState → Option SessState
  | 0, s => some s
  | n + 1, s =>
    match sessionStep user book rnd s with
    | none => none
    | some s1 => runLoop user book rnd n s1

/-- Model of `EventGenerator.generate_user_session` (lines 166–253): emit the
`START_PLAYBACK` event at `start_date`, draw the (unused)
`session_duration` and the target count `num_events ∈ [2, 5]`, run the loop
`num_events - 1` times, then unconditionally append the final
`END_PLAYBACK` event at the current position and chapter with a further
advanced timestamp.  Returns the events and the advanced random cursor;
`none` models a raised `ZeroDivisionError`. -/
def generateUserSession (user : User) (book : AudioBook) (start_date : Nat)
    (rnd : Nat → Nat) (k : Nat) : Option (List PlaybackEvent × Nat) :=
  let startEv : PlaybackEvent :=
    { event_id := "event_" ++ toString k
      user_id := user.user_id
      book_id := book.book_id
      event_type := "START_PLAYBACK"
      timestamp := start_date
      position := 0
      chapter := 1
      metadata := pickMetadata rnd k }
  let k1 := k + 2
  let _session_duration := randint rnd k1 300 3600
  let numEvents := randint rnd (k1 + 1) 2 5
  let s0 : SessState :=
    { events := [startEv], position := 0, chapter := 1, time := start_date
      lastType := "START_PLAYBACK", k := k1 + 2 }
  match runLoop user book rnd (numEvents - 1) s0 with
  | none => none
  | some s1 =>
    let time2 := s1.time + randint rnd s1.k 30 300
    let endEv : PlaybackEvent :=
      { event_id := "event_" ++ toString (s1.k + 1)
        user_id := user.user_id
        book_id := book.book_id
        event_type := "END_PLAYBACK"
        timestamp := time2
        position := s1.position
        chapter := s1.chapter
        metadata := pickMetadata rnd (s1.k + 1) }
    some (s1.events ++ [endEv], s1.k + 3)

/-- The accumulation loop of `EventGenerator.generate_events`
(lines 151–164), with explicit fuel for the unbounded `while`: pick a
random user and book, generate a full session, extend the accumulator only
when the whole session fits within `num_events`, and return
`events[:num_events]` once `num_events` events have been accumulated.
`none` models both fuel exhaustion (the loop still running) and a raised
exception. -/
def generateEventsLoop (users : List User) (books : List AudioBook)
    (start_date : Nat) (rnd : Nat → Nat) (num_events : Nat) :
    Nat → Nat → List PlaybackEvent → Option (List PlaybackEvent)
  | 0, _, _ => none
  | fuel + 1, k, events =>
    if events.length < num_events then
      match choice? rnd k users, choice? rnd (k + 1) books with
      | some user, some book =>
        match generateUserSession user book start_date rnd (k + 2) with
        | none => none
        | some (sess, k2) =>
          if events.length + sess.length ≤ num_events then
            generateEventsLoop users books start_date rnd num_events fuel k2
              (events ++ sess)
          else
            generateEventsLoop users books start_date rnd num_events fuel k2
              events
      | _, _ => none
    else
      some (events.take num_events)

/-- The `EventGenerator` instance state: the populations created by
`_create_users` / `_create_books` plus the configured time window. -/
structure EventGenerator where
  users : List User
  books : List AudioBook
  start_date : Nat
  end_date : Nat
deriving Repr

/-- Model of `_create_users`: `n` users, each drawing a preferred speed (one draw)
and sampling two preferred genres (two draws). -/
def createUsers (rnd : Nat → Nat) : Nat → Nat → List User
  | _, 0 => []
  | k, n + 1 =>
    { user_id := "user_" ++ toString k
      preferred_genres :=
        [choiceD rnd (k + 1) "Fiction"
           ["Fiction", "Mystery", "Science", "History", "Biography"],
         choiceD rnd (k + 2) "Mystery"
           ["Fiction", "Mystery", "Science", "History", "Biography"]] }
      :: createUsers rnd (k + 3) n

/-- Model of `_create_books`: `n` books with `duration = random.randint(3600, 36000)`,
`chapters = random.randint(5, 30)` and a drawn genre. -/
def createBooks (rnd : Nat → Nat) : Nat → Nat → List AudioBook
  | _, 0 => []
  | k, n + 1 =>
    { book_id := "book_" ++ toString k
      title := "Book " ++ toString k
      author := "Author " ++ toString k
      duration := randint rnd k 3600 36000
      chapters := randint rnd (k + 1) 5 30
      genre := choiceD rnd (k + 2) "Fiction"
        ["Fiction", "Mystery", "Science", "History", "Biography"] }
      :: createBooks rnd (k + 3) n

/-- Model of `EventGenerator.__init__`: create the user population, then the book
population, on one random stream. -/
def EventGenerator.create (num_users num_books start_date end_date : Nat)
    (rnd : Nat → Nat) (k : Nat) : EventGenerator :=
  { users := createUsers rnd k num_users
    books := createBooks rnd (k + 3 * num_users) num_books
    start_date := start_date
    end_date := end_date }

/-- Method `generate_user_session` on the instance state. -/
def EventGenerator.generate_user_session (g : EventGenerator) (user : User)
    (book : AudioBook) (rnd : Nat → Nat) (k : Nat) :
    Option (List PlaybackEvent × Nat) :=
  generateUserSession user book g.start_date rnd k

/-- Method `generate_events` on the instance state (fuel-bounded,
starting from an empty accumulator exactly as the source does). -/
def EventGenerator.generate_events (g : EventGenerator) (rnd : Nat → Nat)
    (num_events fuel k : Nat) : Option (List PlaybackEvent) :=
  generateEventsLoop g.users g.books g.start_date rnd num_events fuel k []

/-- The transition table of the spec: which `next` event types the loop may
choose, as a function of the `last` event type.  `END_PLAYBACK` (and every
other string) is terminal and allows nothing. -/
def tableAllows (last next : String) : Bool :=
  (last == "START_PLAYBACK" && (next == "PAUSE" || next == "SEEK")) ||
  (last == "PAUSE" && next == "RESUME") ||
  (last == "RESUME" && (next == "PAUSE" || next == "SEEK")) ||
  (last == "SEEK" && next == "PAUSE")

/-- A pair of adjacent events within one session is acceptable when the
transition is in the table, or the later event is an `END_PLAYBACK`
(covering both clamp-forced early terminations and the unconditionally
appended final event). -/
def stepOK (last next : String) : Bool :=
  tableAllows last next || next == "END_PLAYBACK"

/-! ### Basic facts about the random primitives -/

/-- Python `random.randint(a, b)` never returns less than `a`. -/
theorem randint_lb (rnd : Nat → Nat) (k a b : Nat) : a ≤ randint rnd k a b :=
  Nat.le_add_right a _

/-- Python `random.randint(a, b)` never returns more than `b` (for `a ≤ b`). -/
theorem randint_ub (rnd : Nat → Nat) (k a b : Nat) (h : a ≤ b) :
    randint rnd k a b ≤ b := by
  have hm : rnd k % (b - a + 1) < b - a + 1 := Nat.mod_lt _ (Nat.succ_pos _)
  unfold randint
  omega

/-- Python `random.choice` over a nonempty population returns a member of it. -/
theorem choiceD_mem {α : Type} (rnd : Nat → Nat) (k : Nat) (d : α)
    (l : List α) (h : l ≠ []) : choiceD rnd k d l ∈ l := by
  have hl : 0 < l.length := List.length_pos.mpr h
  have hm : rnd k % l.length < l.length := Nat.mod_lt _ hl
  unfold choiceD
  rw [List.getD_eq_get?]
  cases hg : l.get? (rnd k % l.length) with
  | none => exact absurd (List.get?_eq_none.mp hg) (by omega)
  | some a => simpa using List.get?_mem hg

/-- The partial draw `choice?` only ever returns members of the population. -/
theorem choice?_mem {α : Type} {rnd : Nat → Nat} {k : Nat} {l : List α}
    {a : α} (h : choice? rnd k l = some a) : a ∈ l :=
  List.get?_mem h

/-- The two-element `random.choice(["PAUSE", "SEEK"])` draw. -/
theorem choiceD_pause_seek (rnd : Nat → Nat) (k : Nat) :
    choiceD rnd k "PAUSE" ["PAUSE", "SEEK"] = "PAUSE" ∨
      choiceD rnd k "PAUSE" ["PAUSE", "SEEK"] = "SEEK" := by
  have h := choiceD_mem rnd k "PAUSE" ["PAUSE", "SEEK"] (by simp)
  simpa using h

/-- The chapter formula succeeds and lands in `[1, chapters]` whenever
`1 ≤ chapters ≤ duration`. -/
theorem chapterCalc_some (duration chapters position : Nat)
    (hc : 0 < chapters) (hcd : chapters ≤ duration) :
    ∃ ch, chapterCalc duration chapters position = some ch ∧
      1 ≤ ch ∧ ch ≤ chapters := by
  have hq : 0 < duration / chapters := Nat.div_pos hcd hc
  refine ⟨min chapters (1 + position / (duration / chapters)), ?_, ?_, ?_⟩
  · unfold chapterCalc
    rw [if_neg (by omega)]
  · exact le_min hc (Nat.le_add_right 1 _)
  · exact min_le_left _ _

/-- Extracting a `getLast?` witness as a membership fact. -/
theorem mem_of_getLast?_eq {α : Type} {l : List α} {a : α}
    (h : l.getLast? = some a) : a ∈ l := by
  cases l with
  | nil => simp at h
  | cons x xs =>
    rw [List.getLast?_eq_getLast (x :: xs) (by simp)] at h
    injection h with h
    exact h ▸ List.getLast_mem (by simp)

/-! ### The loop invariant of `generate_user_session` -/

/-- Everything that stays true of the session state across iterations of
the event loop, for a book with `0 < chapters ≤ duration` and a session
started at `start`. -/
structure Inv (user : User) (book : AudioBook) (start : Nat)
    (s : SessState) : Prop where
  ne : s.events ≠ []
  first : ∃ e, s.events.head? = some e ∧ e.event_type = "START_PLAYBACK" ∧
    e.position = 0 ∧ e.chapter = 1 ∧ e.timestamp = start
  chain_ts : s.events.Chain' (fun a b => a.timestamp < b.timestamp)
  chain_ty : s.events.Chain' (fun a b => stepOK a.event_type b.event_type = true)
  nodup_end : s.events.Chain' (fun a b =>
    ¬(a.event_type = "END_PLAYBACK" ∧ b.event_type = "END_PLAYBACK"))
  last_ty : s.events.getLast?.map PlaybackEvent.event_type = some s.lastType
  ts_ub : ∀ e ∈ s.events, e.timestamp ≤ s.time
  ts_lb : ∀ e ∈ s.events, start ≤ e.timestamp
  pos_le : s.position ≤ book.duration
  chap_lb : 1 ≤ s.chapter
  chap_ub : s.chapter ≤ book.chapters
  ev_ok : ∀ e ∈ s.events, e.position ≤ book.duration ∧ 1 ≤ e.chapter ∧
    e.chapter ≤ book.chapters ∧ e.user_id = user.user_id ∧
    e.book_id = book.book_id
  time_ub : s.time ≤ start + 300 * (s.events.length - 1)

/-- Whatever `nextTypeChoice` picks is permitted by the transition table,
and it only picks anything at all when the previous event was not an
`END_PLAYBACK`. -/
theorem nextTypeChoice_spec (rnd : Nat → Nat) (k : Nat) (last ty : String)
    (k1 : Nat) (h : nextTypeChoice rnd k last = some (ty, k1)) :
    tableAllows last ty = true ∧ last ≠ "END_PLAYBACK" := by
  unfold nextTypeChoice at h
  split_ifs at h with h1 h2 h3 h4
  · simp only [Option.some.injEq, Prod.mk.injEq] at h
    obtain ⟨hty, -⟩ := h
    subst h1
    rcases choiceD_pause_seek rnd k with hp | hp <;> rw [hp] at hty <;>
      subst hty <;> decide
  · simp only [Option.some.injEq, Prod.mk.injEq] at h
    obtain ⟨hty, -⟩ := h
    subst h2; subst hty; decide
  · simp only [Option.some.injEq, Prod.mk.injEq] at h
    obtain ⟨hty, -⟩ := h
    subst h3
    rcases choiceD_pause_seek rnd k with hp | hp <;> rw [hp] at hty <;>
      subst hty <;> decide
  · simp only [Option.some.injEq, Prod.mk.injEq] at h
    obtain ⟨hty, -⟩ := h
    subst h4; subst hty; decide

/-- After `START_PLAYBACK` the chain `nextTypeChoice` always offers something after `START_PLAYBACK`. -/
theorem nextTypeChoice_start (rnd : Nat → Nat) (k : Nat) :
    nextTypeChoice rnd k "START_PLAYBACK" =
      some (choiceD rnd k "PAUSE" ["PAUSE", "SEEK"], k + 1) := by
  unfold nextTypeChoice
  rw [if_pos rfl]

/-- The `getLast?` witness of a state satisfying the invariant carries the
recorded `last_event_type`. -/
theorem Inv.lastEvent {user : User} {book : AudioBook} {start : Nat}
    {s : SessState} (hs : Inv user book start s) :
    ∃ el, s.events.getLast? = some el ∧ el.event_type = s.lastType := by
  have h := hs.last_ty
  cases hgl : s.events.getLast? with
  | none => rw [hgl] at h; simp at h
  | some el =>
    rw [hgl] at h
    simp at h
    exact ⟨el, rfl, h⟩

/-- The session start time never exceeds the current time of an invariant
state. -/
theorem Inv.start_le_time {user : User} {book : AudioBook} {start : Nat}
    {s : SessState} (hs : Inv user book start s) : start ≤ s.time := by
  obtain ⟨e0, he0, -, -, -, he0ts⟩ := hs.first
  have he0mem : e0 ∈ s.events := List.mem_of_mem_head? (Option.mem_def.mpr he0)
  exact he0ts ▸ hs.ts_ub e0 he0mem

/-- Appending one more event preserves the loop invariant, provided the
event advances the clock by at most 300 seconds, its transition from the
previous event is acceptable, the previous event was not already an
`END_PLAYBACK`, and its position/chapter are in range. -/
theorem Inv.append {user : User} {book : AudioBook} {start : Nat}
    {s : SessState} (hs : Inv user book start s)
    (e : PlaybackEvent) (pos chap time : Nat) (ty : String) (k : Nat)
    (hety : e.event_type = ty) (hets : e.timestamp = time)
    (hepos : e.position = pos) (hechap : e.chapter = chap)
    (heuid : e.user_id = user.user_id) (hebid : e.book_id = book.book_id)
    (htime : s.time < time) (htime300 : time ≤ s.time + 300)
    (hstep : stepOK s.lastType ty = true)
    (hnotend : s.lastType ≠ "END_PLAYBACK")
    (hpos : pos ≤ book.duration) (hchap1 : 1 ≤ chap)
    (hchapc : chap ≤ book.chapters) :
    Inv user book start
      { events := s.events ++ [e], position := pos, chapter := chap,
        time := time, lastType := ty, k := k } := by
  obtain ⟨el, hel, helty⟩ := hs.lastEvent
  have hstart_le : start ≤ s.time := hs.start_le_time
  have hlastpair : ∀ x, s.events.getLast? = some x → x.event_type = s.lastType := by
    intro x hx
    rw [hel] at hx
    injection hx with hx
    exact hx ▸ helty
  refine ⟨by simp, ?_, ?_, ?_, ?_, ?_, ?_, ?_, hpos, hchap1, hchapc, ?_, ?_⟩
  · -- first event is unchanged
    obtain ⟨e0, he0, he0ty, he0pos, he0chap, he0ts⟩ := hs.first
    obtain ⟨x, xs, hxs⟩ := List.exists_cons_of_ne_nil hs.ne
    refine ⟨e0, ?_, he0ty, he0pos, he0chap, he0ts⟩
    show (s.events ++ [e]).head? = some e0
    rw [hxs] at he0 ⊢
    simp only [List.cons_append, List.head?_cons] at he0 ⊢
    exact he0
  · -- timestamps strictly increase
    refine List.Chain'.append hs.chain_ts (List.chain'_singleton e) ?_
    intro x hx y hy
    have hx2 : s.events.getLast? = some x := Option.mem_def.mp hx
    have hy2 : e = y := by simpa using hy
    subst hy2
    have hxle : x.timestamp ≤ s.time :=
      hs.ts_ub x (mem_of_getLast?_eq hx2)
    show x.timestamp < e.timestamp
    omega
  · -- transitions acceptable
    refine List.Chain'.append hs.chain_ty (List.chain'_singleton e) ?_
    intro x hx y hy
    have hx2 : s.events.getLast? = some x := Option.mem_def.mp hx
    have hy2 : e = y := by simpa using hy
    subst hy2
    show stepOK x.event_type e.event_type = true
    rw [hlastpair x hx2, hety]
    exact hstep
  · -- no interior END/END pair
    refine List.Chain'.append hs.nodup_end (List.chain'_singleton e) ?_
    intro x hx y hy
    have hx2 : s.events.getLast? = some x := Option.mem_def.mp hx
    have hy2 : e = y := by simpa using hy
    subst hy2
    rintro ⟨hxEnd, -⟩
    exact hnotend ((hlastpair x hx2).symm.trans hxEnd)
  · -- last type is recorded
    show ((s.events ++ [e]).getLast?).map PlaybackEvent.event_type = some ty
    rw [List.getLast?_concat]
    simp [hety]
  · -- timestamps bounded by current time
    intro x hx
    rcases List.mem_append.mp hx with hx | hx
    · exact le_of_lt (lt_of_le_of_lt (hs.ts_ub x hx) htime)
    · simp only [List.mem_singleton] at hx
      subst hx
      show x.timestamp ≤ time
      omega
  · -- timestamps bounded below by session start
    intro x hx
    rcases List.mem_append.mp hx with hx | hx
    · exact hs.ts_lb x hx
    · simp only [List.mem_singleton] at hx
      subst hx
      omega
  · -- per-event bounds and identities
    intro x hx
    rcases List.mem_append.mp hx with hx | hx
    · exact hs.ev_ok x hx
    · simp only [List.mem_singleton] at hx
      subst hx
      exact ⟨hepos ▸ hpos, hechap ▸ hchap1, hechap ▸ hchapc, heuid, hebid⟩
  · -- clock bound
    have hlen : 1 ≤ s.events.length := List.length_pos.mpr hs.ne
    have htub := hs.time_ub
    show time ≤ start + 300 * ((s.events ++ [e]).length - 1)
    simp only [List.length_append, List.length_cons, List.length_nil]
    omega

/-- One loop iteration succeeds and preserves the invariant (for a book
with `0 < chapters ≤ duration`), adding at most one event — and exactly one
when the previous event was the opening `START_PLAYBACK`. -/
theorem sessionStep_inv (user : User) (book : AudioBook) (rnd : Nat → Nat)
    (hc : 0 < book.chapters) (hcd : book.chapters ≤ book.duration)
    {start : Nat} {s : SessState} (hs : Inv user book start s) :
    ∃ s1, sessionStep user book rnd s = some s1 ∧ Inv user book start s1 ∧
      s.events.length ≤ s1.events.length ∧
      s1.events.length ≤ s.events.length + 1 ∧
      (s.lastType = "START_PLAYBACK" →
        s1.events.length = s.events.length + 1) := by
  cases hn : nextTypeChoice rnd s.k s.lastType with
  | none =>
    refine ⟨s, by simp [sessionStep, hn], hs, le_refl _, Nat.le_succ _, ?_⟩
    intro hstart
    rw [hstart, nextTypeChoice_start] at hn
    exact absurd hn (by simp)
  | some p =>
    obtain ⟨ty0, k1⟩ := p
    obtain ⟨hTab, hNotEnd⟩ := nextTypeChoice_spec rnd s.k s.lastType ty0 k1 hn
    set time1 := s.time + randint rnd k1 30 300 with htime1
    set pos0 := (if ty0 = "SEEK" then randint rnd (k1 + 1) 0 book.duration
                 else s.position + randint rnd (k1 + 1) 30 300) with hpos0
    set ty1 := (if book.duration < pos0 then "END_PLAYBACK" else ty0) with hty1
    set pos1 := (if book.duration < pos0 then book.duration else pos0) with hpos1
    have hpos1le : pos1 ≤ book.duration := by
      rw [hpos1]
      split_ifs with hlt
      · exact le_refl _
      · omega
    obtain ⟨chap, hch, hch1, hch2⟩ :=
      chapterCalc_some book.duration book.chapters pos1 hc hcd
    have h30 : 30 ≤ randint rnd k1 30 300 := randint_lb rnd k1 30 300
    have h300 : randint rnd k1 30 300 ≤ 300 :=
      randint_ub rnd k1 30 300 (by omega)
    have hstep : stepOK s.lastType ty1 = true := by
      unfold stepOK
      rw [hty1]
      split_ifs with hlt
      · simp
      · simp [hTab]
    refine ⟨{ events := s.events ++
              [{ event_id := "event_" ++ toString (k1 + 2),
                 user_id := user.user_id,
                 book_id := book.book_id,
                 event_type := ty1,
                 timestamp := time1,
                 position := pos1,
                 chapter := chap,
                 metadata := pickMetadata rnd (k1 + 2) }],
              position := pos1,
              chapter := chap,
              time := time1,
              lastType := ty1,
              k := k1 + 2 + 2 }, ?_, ?_, ?_, ?_, ?_⟩
    · simp only [sessionStep, hn]
      rw [← hpos0, ← hty1, ← hpos1, ← htime1, hch]
    · exact hs.append _ pos1 chap time1 ty1 (k1 + 2 + 2) rfl rfl rfl rfl rfl rfl
        (by omega) (by omega) hstep hNotEnd hpos1le hch1 hch2
    · simp
    · simp
    · intro
      simp

/-- Running the loop preserves the invariant and adds at most one event per
iteration. -/
theorem runLoop_inv (user : User) (book : AudioBook) (rnd : Nat → Nat)
    (hc : 0 < book.chapters) (hcd : book.chapters ≤ book.duration) :
    ∀ (n : Nat) {start : Nat} {s : SessState}, Inv user book start s →
      ∃ s1, runLoop user book rnd n s = some s1 ∧ Inv user book start s1 ∧
        s.events.length ≤ s1.events.length ∧
        s1.events.length ≤ s.events.length + n := by
  intro n
  induction n with
  | zero =>
    intro start s hs
    exact ⟨s, rfl, hs, le_refl _, by omega⟩
  | succ m ih =>
    intro start s hs
    obtain ⟨s1, hstep, hinv1, hlb1, hub1, -⟩ :=
      sessionStep_inv user book rnd hc hcd hs
    obtain ⟨s2, hrun, hinv2, hlb2, hub2⟩ := ih hinv1
    refine ⟨s2, ?_, hinv2, by omega, by omega⟩
    show runLoop user book rnd (m + 1) s = some s2
    rw [runLoop, hstep]
    exact hrun

/-- Everything the specification promises about one generated session. -/
structure SessionOK (user : User) (book : AudioBook) (start : Nat)
    (evs : List PlaybackEvent) : Prop where
  len_lb : 3 ≤ evs.length
  len_ub : evs.length ≤ 6
  first : ∃ e, evs.head? = some e ∧ e.event_type = "START_PLAYBACK" ∧
    e.position = 0 ∧ e.chapter = 1 ∧ e.timestamp = start
  last : ∃ e, evs.getLast? = some e ∧ e.event_type = "END_PLAYBACK"
  chain_ts : evs.Chain' (fun a b => a.timestamp < b.timestamp)
  chain_ty : evs.Chain' (fun a b => stepOK a.event_type b.event_type = true)
  nodup_end : evs.dropLast.Chain' (fun a b =>
    ¬(a.event_type = "END_PLAYBACK" ∧ b.event_type = "END_PLAYBACK"))
  ev_ok : ∀ e ∈ evs, e.position ≤ book.duration ∧ 1 ≤ e.chapter ∧
    e.chapter ≤ book.chapters ∧ e.user_id = user.user_id ∧
    e.book_id = book.book_id ∧ start ≤ e.timestamp ∧
    e.timestamp ≤ start + 1500

/-- The master lemma: for a book with `0 < chapters ≤ duration`,
`generate_user_session` succeeds and its output satisfies every sessionwise
property of the specification. -/
theorem generateUserSession_ok (user : User) (book : AudioBook)
    (start : Nat) (rnd : Nat → Nat) (k : Nat)
    (hc : 0 < book.chapters) (hcd : book.chapters ≤ book.duration) :
    ∃ evs k2, generateUserSession user book start rnd k = some (evs, k2) ∧
      SessionOK user book start evs := by
  set startEv : PlaybackEvent :=
    { event_id := "event_" ++ toString k, user_id := user.user_id,
      book_id := book.book_id, event_type := "START_PLAYBACK",
      timestamp := start, position := 0, chapter := 1,
      metadata := pickMetadata rnd k } with hstartEv
  set s0 : SessState :=
    { events := [startEv], position := 0, chapter := 1, time := start,
      lastType := "START_PLAYBACK", k := k + 2 + 2 } with hs0
  set numEvents := randint rnd (k + 2 + 1) 2 5 with hnum
  have h2 : 2 ≤ numEvents := randint_lb rnd _ 2 5
  have h5 : numEvents ≤ 5 := randint_ub rnd _ 2 5 (by omega)
  have hinv0 : Inv user book start s0 := by
    refine ⟨by simp [hs0], ⟨startEv, rfl, rfl, rfl, rfl, rfl⟩,
      List.chain'_singleton _, List.chain'_singleton _,
      List.chain'_singleton _, by simp [hs0, hstartEv], ?_, ?_,
      Nat.zero_le _, le_refl 1, hc, ?_, by simp [hs0]⟩
    · intro e he
      simp only [hs0, List.mem_singleton] at he
      subst he
      exact le_refl _
    · intro e he
      simp only [hs0, List.mem_singleton] at he
      subst he
      exact le_refl _
    · intro e he
      simp only [hs0, List.mem_singleton] at he
      subst he
      exact ⟨Nat.zero_le _, le_refl 1, hc, rfl, rfl⟩
  obtain ⟨m, hm⟩ : ∃ m, numEvents - 1 = m + 1 := ⟨numEvents - 2, by omega⟩
  obtain ⟨sA, hstepA, hinvA, -, -, hgrow⟩ :=
    sessionStep_inv user book rnd hc hcd hinv0
  have hlenA : sA.events.length = 2 := by
    rw [hgrow rfl]
    simp [hs0]
  obtain ⟨s1, hrunA, hinv1, hlb1, hub1⟩ :=
    runLoop_inv user book rnd hc hcd m hinvA
  have hrun : runLoop user book rnd (numEvents - 1) s0 = some s1 := by
    rw [hm, runLoop, hstepA]
    exact hrunA
  have hlen1 : 2 ≤ s1.events.length := by omega
  have hlen5 : s1.events.length ≤ 5 := by omega
  set time2 := s1.time + randint rnd s1.k 30 300 with htime2
  set endEv : PlaybackEvent :=
    { event_id := "event_" ++ toString (s1.k + 1), user_id := user.user_id,
      book_id := book.book_id, event_type := "END_PLAYBACK",
      timestamp := time2, position := s1.position, chapter := s1.chapter,
      metadata := pickMetadata rnd (s1.k + 1) } with hendEv
  have h30 : 30 ≤ randint rnd s1.k 30 300 := randint_lb rnd s1.k 30 300
  have h300 : randint rnd s1.k 30 300 ≤ 300 :=
    randint_ub rnd s1.k 30 300 (by omega)
  have hstart_le : start ≤ s1.time := hinv1.start_le_time
  have htub := hinv1.time_ub
  refine ⟨s1.events ++ [endEv], s1.k + 3, ?_, ?_⟩
  · show generateUserSession user book start rnd k =
      some (s1.events ++ [endEv], s1.k + 3)
    rw [hnum, hs0, hstartEv] at hrun
    simp only [generateUserSession]
    rw [hrun]
  · refine ⟨?_, ?_, ?_, ⟨endEv, List.getLast?_concat _, rfl⟩, ?_, ?_, ?_, ?_⟩
    · simp only [List.length_append, List.length_cons, List.length_nil]
      omega
    · simp only [List.length_append, List.length_cons, List.length_nil]
      omega
    · obtain ⟨e0, he0, hty, hpos, hchap, hts⟩ := hinv1.first
      obtain ⟨x, xs, hxs⟩ := List.exists_cons_of_ne_nil hinv1.ne
      refine ⟨e0, ?_, hty, hpos, hchap, hts⟩
      rw [hxs] at he0 ⊢
      simpa using he0
    · refine List.Chain'.append hinv1.chain_ts (List.chain'_singleton _) ?_
      intro x hx y hy
      have hx2 := Option.mem_def.mp hx
      have hy2 : endEv = y := by simpa using hy
      subst hy2
      have hxle := hinv1.ts_ub x (mem_of_getLast?_eq hx2)
      show x.timestamp < time2
      omega
    · refine List.Chain'.append hinv1.chain_ty (List.chain'_singleton _) ?_
      intro x hx y hy
      have hy2 : endEv = y := by simpa using hy
      subst hy2
      show stepOK x.event_type "END_PLAYBACK" = true
      simp [stepOK]
    · rw [List.dropLast_concat]
      exact hinv1.nodup_end
    · intro x hx
      rcases List.mem_append.mp hx with hx | hx
      · obtain ⟨hp1, hp2, hp3, hp4, hp5⟩ := hinv1.ev_ok x hx
        have hts1 := hinv1.ts_ub x hx
        have hts0 := hinv1.ts_lb x hx
        exact ⟨hp1, hp2, hp3, hp4, hp5, hts0, by omega⟩
      · simp only [List.mem_singleton] at hx
        subst hx
        refine ⟨hinv1.pos_le, hinv1.chap_lb, hinv1.chap_ub, rfl, rfl, ?_, ?_⟩
        · show start ≤ time2
          omega
        · show time2 ≤ start + 1500
          omega

/-- Whatever a loop iteration does, every event it holds belongs to the
session's user and book (no validity assumptions needed). -/
theorem sessionStep_ids (user : User) (book : AudioBook) (rnd : Nat → Nat)
    {s s1 : SessState} (h : sessionStep user book rnd s = some s1)
    (hids : ∀ e ∈ s.events, e.user_id = user.user_id ∧
      e.book_id = book.book_id) :
    ∀ e ∈ s1.events, e.user_id = user.user_id ∧ e.book_id = book.book_id := by
  simp only [sessionStep] at h
  split at h
  · injection h with h
    subst h
    exact hids
  · split at h
    · exact absurd h (by simp)
    · injection h with h
      subst h
      intro e he
      rcases List.mem_append.mp he with he | he
      · exact hids e he
      · simp only [List.mem_singleton] at he
        subst he
        exact ⟨rfl, rfl⟩

/-- Running the loop keeps the user/book identities of all held events. -/
theorem runLoop_ids (user : User) (book : AudioBook) (rnd : Nat → Nat) :
    ∀ (n : Nat) {s s1 : SessState},
      runLoop user book rnd n s = some s1 →
      (∀ e ∈ s.events, e.user_id = user.user_id ∧
        e.book_id = book.book_id) →
      ∀ e ∈ s1.events, e.user_id = user.user_id ∧
        e.book_id = book.book_id := by
  intro n
  induction n with
  | zero =>
    intro s s1 h hids
    rw [runLoop] at h
    injection h with h
    subst h
    exact hids
  | succ m ih =>
    intro s s1 h hids
    rw [runLoop] at h
    cases hstep : sessionStep user book rnd s with
    | none => rw [hstep] at h; exact absurd h (by simp)
    | some s2 =>
      rw [hstep] at h
      exact ih h (sessionStep_ids user book rnd hstep hids)

/-- Every event of a successfully generated session belongs to the
session's user and book — with no assumptions on the book at all. -/
theorem generateUserSession_ids (user : User) (book : AudioBook)
    (start : Nat) (rnd : Nat → Nat) (k : Nat)
    {evs : List PlaybackEvent} {k2 : Nat}
    (h : generateUserSession user book start rnd k = some (evs, k2)) :
    ∀ e ∈ evs, e.user_id = user.user_id ∧ e.book_id = book.book_id := by
  simp only [generateUserSession] at h
  split at h
  · exact absurd h (by simp)
  · rename_i s1 hrun
    injection h with h
    rw [Prod.mk.injEq] at h
    obtain ⟨rfl, rfl⟩ := h
    intro e he
    rcases List.mem_append.mp he with he | he
    · refine runLoop_ids user book rnd _ hrun ?_ e he
      intro x hx
      simp only [List.mem_singleton] at hx
      subst hx
      exact ⟨rfl, rfl⟩
    · simp only [List.mem_singleton] at he
      subst he
      exact ⟨rfl, rfl⟩

/-- The accumulation loop of `generate_events`: if it completes, it returns
exactly `num_events` events, and every returned event satisfies any
predicate that all successfully generated sessions of known users and books
satisfy. -/
theorem generateEventsLoop_spec (users : List User) (books : List AudioBook)
    (start : Nat) (rnd : Nat → Nat) (N : Nat) (P : PlaybackEvent → Prop)
    (hP : ∀ user book k evs k2, user ∈ users → book ∈ books →
      generateUserSession user book start rnd k = some (evs, k2) →
      ∀ e ∈ evs, P e) :
    ∀ (fuel k : Nat) (acc : List PlaybackEvent),
      (∀ e ∈ acc, P e) → acc.length ≤ N →
      ∀ evs, generateEventsLoop users books start rnd N fuel k acc = some evs →
        evs.length = N ∧ ∀ e ∈ evs, P e := by
  intro fuel
  induction fuel with
  | zero =>
    intro k acc hacc hlen evs h
    exact absurd h (by simp [generateEventsLoop])
  | succ m ih =>
    intro k acc hacc hlen evs h
    rw [generateEventsLoop] at h
    split at h
    · -- still accumulating
      split at h
      · rename_i user book hu hb
        cases hsess : generateUserSession user book start rnd (k + 2) with
        | none => rw [hsess] at h; exact absurd h (by simp)
        | some p =>
          obtain ⟨sess, k2⟩ := p
          rw [hsess] at h
          simp only [] at h
          split at h
          · rename_i hfit
            refine ih k2 (acc ++ sess) ?_ ?_ evs h
            · intro e he
              rcases List.mem_append.mp he with he | he
              · exact hacc e he
              · exact hP user book (k + 2) sess k2 (choice?_mem hu)
                  (choice?_mem hb) hsess e he
            · simpa using hfit
          · exact ih k2 acc hacc hlen evs h
      · exact absurd h (by simp)
    · -- done: the accumulator already holds at least N events
      rename_i hfull
      injection h with h
      subst h
      have hge : N ≤ acc.length := by omega
      have hacclen : acc.length = N := le_antisymm hlen hge
      constructor
      · rw [List.length_take]
        omega
      · intro e he
        exact hacc e (List.take_subset _ _ he)

/-- With `num_events = 1` the accumulation loop never finishes, for any
fuel: every session holds at least 3 events, so no session ever fits, and
the accumulator stays empty forever.  (Books must merely be well-formed
enough for sessions not to raise.) -/
theorem generateEventsLoop_one_none (users : List User)
    (books : List AudioBook) (start : Nat) (rnd : Nat → Nat)
    (hb : ∀ b ∈ books, 0 < b.chapters ∧ b.chapters ≤ b.duration) :
    ∀ (fuel k : Nat),
      generateEventsLoop users books start rnd 1 fuel k [] = none := by
  intro fuel
  induction fuel with
  | zero => intro k; rw [generateEventsLoop]
  | succ m ih =>
    intro k
    rw [generateEventsLoop]
    rw [if_pos (by simp)]
    cases hu : choice? rnd k users with
    | none => simp [hu]
    | some user =>
      cases hbk : choice? rnd (k + 1) books with
      | none => simp [hu, hbk]
      | some book =>
        obtain ⟨hbc, hbcd⟩ := hb book (choice?_mem hbk)
        obtain ⟨sess, k2, hsess, hok⟩ :=
          generateUserSession_ok user book start rnd (k + 2) hbc hbcd
        have hlen := hok.len_lb
        simp only [hu, hbk, hsess]
        rw [if_neg (by simp; omega)]
        exact ih k2

/-- Every book created by `_create_books` has
`3600 ≤ duration ≤ 36000` and `5 ≤ chapters ≤ 30`. -/
theorem createBooks_valid (rnd : Nat → Nat) :
    ∀ (n k : Nat), ∀ b ∈ createBooks rnd k n,
      3600 ≤ b.duration ∧ b.duration ≤ 36000 ∧
        5 ≤ b.chapters ∧ b.chapters ≤ 30 := by
  intro n
  induction n with
  | zero => intro k b hb; simp [createBooks] at hb
  | succ m ih =>
    intro k b hb
    rw [createBooks] at hb
    rcases List.mem_cons.mp hb with hb | hb
    · subst hb
      refine ⟨randint_lb rnd k 3600 36000,
        randint_ub rnd k 3600 36000 (by omega),
        randint_lb rnd (k + 1) 5 30,
        randint_ub rnd (k + 1) 5 30 (by omega)⟩
    · exact ih (k + 3) b hb

-- shared concrete inputs used by the witnesses below
def demoUser : User := { user_id := "u0", preferred_genres := [] }
def demoBook : AudioBook :=
  { book_id := "b0", title := "t", author := "a", duration := 1, chapters := 1,
    genre := "Fiction" }

/-- A concrete book for which the chapter formula divides by zero:
`chapters > duration`. -/
def badBook : AudioBook :=
  { book_id := "b1", title := "t", author := "a", duration := 5,
    chapters := 10, genre := "Fiction" }

/-- Shared concrete generator (one user, one book). -/
def demoGen : EventGenerator :=
  { users := [demoUser], books := [demoBook], start_date := 0,
    end_date := 86400 }

/-- The session generated for the demo user/book on the all-zeros random
stream, together with the advanced cursor. -/
def demoPair : List PlaybackEvent × Nat :=
  (generateUserSession demoUser demoBook 0 (fun _ => 0) 0).getD ([], 0)

/-- The batch of 3 events generated by the demo generator on the all-zeros
random stream. -/
def demoBatch : List PlaybackEvent :=
  (demoGen.generate_events (fun _ => 0) 3 2 0).getD []

def demoMeta : Metadata :=
  { device_type := "mobile", app_version := "1.0.0", network_type := "wifi" }

/-! ### The claims -/

/-- C1: for every user and every book with positive duration and chapters
and `duration ≥ chapters` (so the chapter formula is defined),
`generate_user_session` returns a list of at least 3 events whose first
event is a `START_PLAYBACK` with position 0, chapter 1, and timestamp
`start_date`, whose last event is an `END_PLAYBACK`, and whose timestamps
strictly increase between consecutive events. -/
theorem claim1_session_shape (user : User) (book : AudioBook)
    (start : Nat) (rnd : Nat → Nat) (k : Nat)
    ( _hd : 0 < book.duration) (hc : 0 < book.chapters)
    (hcd : book.chapters ≤ book.duration) :
    ∃ evs k2, generateUserSession user book start rnd k = some (evs, k2) ∧
      3 ≤ evs.length ∧
      (∃ e, evs.head? = some e ∧ e.event_type = "START_PLAYBACK" ∧
        e.position = 0 ∧ e.chapter = 1 ∧ e.timestamp = start) ∧
      (∃ e, evs.getLast? = some e ∧ e.event_type = "END_PLAYBACK") ∧
      evs.Chain' (fun a b => a.timestamp < b.timestamp) := by
  obtain ⟨evs, k2, heq, hok⟩ :=
    generateUserSession_ok user book start rnd k hc hcd
  exact ⟨evs, k2, heq, hok.len_lb, hok.first, hok.last, hok.chain_ts⟩

/-- C1 witness: the concrete demo session satisfies the claim. -/
theorem claim1_witness :
    0 < demoBook.duration ∧ 0 < demoBook.chapters ∧
      demoBook.chapters ≤ demoBook.duration ∧
      (∃ evs k2,
        generateUserSession demoUser demoBook 0 (fun _ => 0) 0 =
          some (evs, k2) ∧
        3 ≤ evs.length ∧
        (∃ e, evs.head? = some e ∧ e.event_type = "START_PLAYBACK" ∧
          e.position = 0 ∧ e.chapter = 1 ∧ e.timestamp = 0) ∧
        (∃ e, evs.getLast? = some e ∧ e.event_type = "END_PLAYBACK") ∧
        evs.Chain' (fun a b => a.timestamp < b.timestamp)) :=
  ⟨by decide, by decide, by decide,
    claim1_session_shape demoUser demoBook 0 (fun _ => 0) 0 (by decide)
      (by decide) (by decide)⟩

/-- C2: every pair of adjacent events within one generated session is
either permitted by the transition table, or the later event is an
`END_PLAYBACK` (which covers both clamp-forced early terminations and the
final appended `END_PLAYBACK`). -/
theorem claim2_transitions (user : User) (book : AudioBook) (start : Nat)
    (rnd : Nat → Nat) (k : Nat) (hc : 0 < book.chapters)
    (hcd : book.chapters ≤ book.duration) (evs : List PlaybackEvent)
    (k2 : Nat)
    (h : generateUserSession user book start rnd k = some (evs, k2)) :
    evs.Chain' (fun a b => tableAllows a.event_type b.event_type = true ∨
      b.event_type = "END_PLAYBACK") := by
  obtain ⟨evs2, k3, heq, hok⟩ :=
    generateUserSession_ok user book start rnd k hc hcd
  rw [heq] at h
  injection h with h
  rw [Prod.mk.injEq] at h
  obtain ⟨rfl, rfl⟩ := h
  refine hok.chain_ty.imp ?_
  intro a b hab
  simpa [stepOK] using hab

/-- C2 witness: the claim applied to the concrete demo session. -/
theorem claim2_witness :
    List.Chain' (fun a b => tableAllows a.event_type b.event_type = true ∨
      b.event_type = "END_PLAYBACK") demoPair.1 :=
  claim2_transitions demoUser demoBook 0 (fun _ => 0) 0 (by decide)
    (by decide) demoPair.1 demoPair.2 rfl

/-- C3 counterexample: on the all-zeros random stream the demo session is
`[START_PLAYBACK, END_PLAYBACK, END_PLAYBACK]` — the clamp forces an
`END_PLAYBACK` inside the loop and the final `END_PLAYBACK` is appended
anyway (the source appends it unconditionally), so the session does
contain two consecutive `END_PLAYBACK` events. -/
theorem claim3_counterexample :
    (generateUserSession demoUser demoBook 0 (fun _ => 0) 0).map
        (fun p => p.1.map PlaybackEvent.event_type) =
      some ["START_PLAYBACK", "END_PLAYBACK", "END_PLAYBACK"] ∧
    ¬ List.Chain' (fun a b : String =>
        ¬(a = "END_PLAYBACK" ∧ b = "END_PLAYBACK"))
      ["START_PLAYBACK", "END_PLAYBACK", "END_PLAYBACK"] := by
  refine ⟨rfl, fun hch => ?_⟩
  rcases List.chain'_cons.mp hch with ⟨-, h2⟩
  rcases List.chain'_cons.mp h2 with ⟨h3, -⟩
  exact h3 ⟨rfl, rfl⟩

/-- C3 amended: the final `END_PLAYBACK` is appended unconditionally, so
the session always ends in an `END_PLAYBACK`, and the only place two
consecutive `END_PLAYBACK` events can occur is at the very end (when the
loop was cut short by position clamping); before the last event no two
consecutive `END_PLAYBACK` events occur. -/
theorem claim3_amended_unconditional_end (user : User) (book : AudioBook)
    (start : Nat) (rnd : Nat → Nat) (k : Nat) (hc : 0 < book.chapters)
    (hcd : book.chapters ≤ book.duration) (evs : List PlaybackEvent)
    (k2 : Nat)
    (h : generateUserSession user book start rnd k = some (evs, k2)) :
    (∃ e, evs.getLast? = some e ∧ e.event_type = "END_PLAYBACK") ∧
    evs.dropLast.Chain' (fun a b =>
      ¬(a.event_type = "END_PLAYBACK" ∧ b.event_type = "END_PLAYBACK")) := by
  obtain ⟨evs2, k3, heq, hok⟩ :=
    generateUserSession_ok user book start rnd k hc hcd
  rw [heq] at h
  injection h with h
  rw [Prod.mk.injEq] at h
  obtain ⟨rfl, rfl⟩ := h
  exact ⟨hok.last, hok.nodup_end⟩

/-- C3 amended witness: the claim applied to the concrete demo session. -/
theorem claim3_amended_witness :
    (∃ e, demoPair.1.getLast? = some e ∧ e.event_type = "END_PLAYBACK") ∧
    List.Chain' (fun a b : PlaybackEvent =>
      ¬(a.event_type = "END_PLAYBACK" ∧ b.event_type = "END_PLAYBACK"))
      demoPair.1.dropLast :=
  claim3_amended_unconditional_end demoUser demoBook 0 (fun _ => 0) 0
    (by decide) (by decide) demoPair.1 demoPair.2 rfl

/-- C4: whenever `generate_events N` completes, the returned list holds
exactly `N` events, and each event's user and book identifiers are those of
a known user and a known book of the generator. -/
theorem claim4_count_and_membership (g : EventGenerator) (rnd : Nat → Nat)
    (N fuel k : Nat) (evs : List PlaybackEvent)
    (h : g.generate_events rnd N fuel k = some evs) :
    evs.length = N ∧ ∀ e ∈ evs,
      e.user_id ∈ g.users.map User.user_id ∧
      e.book_id ∈ g.books.map AudioBook.book_id := by
  refine generateEventsLoop_spec g.users g.books g.start_date rnd N
    (fun e => e.user_id ∈ g.users.map User.user_id ∧
      e.book_id ∈ g.books.map AudioBook.book_id) ?_ fuel k [] (by simp)
    (Nat.zero_le N) evs h
  intro user book k0 evs0 k2 hu hb hsess e he
  obtain ⟨h1, h2⟩ :=
    generateUserSession_ids user book g.start_date rnd k0 hsess e he
  constructor
  · rw [h1]
    exact List.mem_map_of_mem User.user_id hu
  · rw [h2]
    exact List.mem_map_of_mem AudioBook.book_id hb

/-- C4 witness: the concrete demo batch of 3 events. -/
theorem claim4_witness :
    demoBatch.length = 3 ∧ ∀ e ∈ demoBatch,
      e.user_id ∈ demoGen.users.map User.user_id ∧
      e.book_id ∈ demoGen.books.map AudioBook.book_id :=
  claim4_count_and_membership demoGen (fun _ => 0) 3 2 0 demoBatch rfl

/-- C5 (the claim fails: there is no input validation in the code): with
`num_events = 1` — below the minimum session size of 3 — the accumulation
loop of `generate_events` never terminates: for every fuel bound it is
still running.  The hypothesis on the books merely rules out the unrelated
`ZeroDivisionError`. -/
theorem claim5_no_validation_diverges (g : EventGenerator) (rnd : Nat → Nat)
    (hb : ∀ b ∈ g.books, 0 < b.chapters ∧ b.chapters ≤ b.duration) :
    ∀ fuel k, g.generate_events rnd 1 fuel k = none :=
  fun fuel k =>
    generateEventsLoop_one_none g.users g.books g.start_date rnd hb fuel k

/-- C5 witness: the demo generator diverges on `generate_events 1`. -/
theorem claim5_witness :
    demoGen.generate_events (fun _ => 0) 1 5 0 = none :=
  claim5_no_validation_diverges demoGen (fun _ => 0) (by decide) 5 0

/-- C6: for a book with `1 ≤ chapters ≤ duration`, every event of every
generated session has `0 ≤ position ≤ duration` and
`1 ≤ chapter ≤ chapters`. -/
theorem claim6_position_chapter_bounds (user : User) (book : AudioBook)
    (start : Nat) (rnd : Nat → Nat) (k : Nat) (hc : 1 ≤ book.chapters)
    (hcd : book.chapters ≤ book.duration) (evs : List PlaybackEvent)
    (k2 : Nat)
    (h : generateUserSession user book start rnd k = some (evs, k2)) :
    ∀ e ∈ evs, 0 ≤ e.position ∧ e.position ≤ book.duration ∧
      1 ≤ e.chapter ∧ e.chapter ≤ book.chapters := by
  obtain ⟨evs2, k3, heq, hok⟩ :=
    generateUserSession_ok user book start rnd k hc hcd
  rw [heq] at h
  injection h with h
  rw [Prod.mk.injEq] at h
  obtain ⟨rfl, rfl⟩ := h
  intro e he
  obtain ⟨h1, h2, h3, -⟩ := hok.ev_ok e he
  exact ⟨Nat.zero_le _, h1, h2, h3⟩

/-- The first event of the demo session, used to instantiate the C6
witness at a concrete event. -/
def demoEvent : PlaybackEvent :=
  demoPair.1.getD 0
    { event_id := "", user_id := "", book_id := "", event_type := "",
      timestamp := 0, position := 0, chapter := 0, metadata := demoMeta }

/-- C6 witness: the claim applied to the concrete demo session at its
first event. -/
theorem claim6_witness :
    0 ≤ demoEvent.position ∧ demoEvent.position ≤ demoBook.duration ∧
      1 ≤ demoEvent.chapter ∧ demoEvent.chapter ≤ demoBook.chapters :=
  claim6_position_chapter_bounds demoUser demoBook 0 (fun _ => 0) 0
    (by decide) (by decide) demoPair.1 demoPair.2 rfl demoEvent (by decide)

/-- C7 counterexample: for a book with positive duration and chapters but
`chapters > duration` the inner quotient `duration // chapters` is zero, so
the chapter formula raises `ZeroDivisionError` (modelled as `none`) — both
in isolation and inside `generate_user_session` — refuting the claim that
the formula is well-defined for every book with positive duration and
`chapters ≥ 1`. -/
theorem claim7_counterexample :
    0 < badBook.duration ∧ 0 < badBook.chapters ∧
      badBook.duration < badBook.chapters ∧
      chapterCalc badBook.duration badBook.chapters 0 = none ∧
      generateUserSession demoUser badBook 0 (fun _ => 0) 0 = none := by
  decide

/-- C7 amended: the chapter formula
`min(chapters, 1 + position // (duration // chapters))` is well-defined
exactly on books with `1 ≤ chapters ≤ duration` (where it also lands in
`[1, chapters]`); for `chapters > duration` the inner integer quotient is
zero and the expression raises `ZeroDivisionError` — the `min` only clamps
the chapter value, it does not guard the division. -/
theorem claim7_amended_welldefined (duration chapters position : Nat)
    (hc : 1 ≤ chapters) (hcd : chapters ≤ duration) :
    ∃ ch, chapterCalc duration chapters position = some ch ∧
      1 ≤ ch ∧ ch ≤ chapters :=
  chapterCalc_some duration chapters position hc hcd

/-- C7 amended witness. -/
theorem claim7_amended_witness :
    ∃ ch, chapterCalc 10 2 5 = some ch ∧ 1 ≤ ch ∧ ch ≤ 2 :=
  claim7_amended_welldefined 10 2 5 (by decide) (by decide)

/-- C8: constructing a `PlaybackEvent` with an event type outside the five
valid ones fails with a validation error and yields no event, while
construction with a valid event type succeeds and stores that exact type —
the type is never coerced. -/
theorem claim8_event_type_validation (event_id user_id book_id ty : String)
    (timestamp position chapter : Nat) (md : Metadata) :
    (ty ∉ validEventTypes →
      mkPlaybackEvent event_id user_id book_id ty timestamp position
        chapter md = Except.error ("Invalid event type: " ++ ty)) ∧
    (ty ∈ validEventTypes →
      mkPlaybackEvent event_id user_id book_id ty timestamp position
        chapter md = Except.ok ⟨event_id, user_id, book_id, ty, timestamp,
          position, chapter, md⟩) := by
  constructor
  · intro hv
    unfold mkPlaybackEvent
    rw [if_neg hv]
  · intro hv
    unfold mkPlaybackEvent
    rw [if_pos hv]

/-- C8 witness: the concrete `"INVALID"` type is rejected and the concrete
`"PAUSE"` type is accepted unchanged. -/
theorem claim8_witness :
    mkPlaybackEvent "e1" "u1" "b1" "INVALID" 0 0 1 demoMeta =
      Except.error ("Invalid event type: " ++ "INVALID") ∧
    mkPlaybackEvent "e1" "u1" "b1" "PAUSE" 0 0 1 demoMeta =
      Except.ok ⟨"e1", "u1", "b1", "PAUSE", 0, 0, 1, demoMeta⟩ :=
  ⟨(claim8_event_type_validation "e1" "u1" "b1" "INVALID" 0 0 1 demoMeta).1
      (by decide),
    (claim8_event_type_validation "e1" "u1" "b1" "PAUSE" 0 0 1 demoMeta).2
      (by decide)⟩

/-- C9: a generator constructed with 5 users, 5 books and the window
`[T, T + 1 day]`, whenever `generate_events 50` completes, returns exactly
50 events, each with timestamp inside `[T, T + 1 day]`, a user id of one of
the 5 generated users, and a book id of one of the 5 generated books. -/
theorem claim9_example_config (T : Nat) (rnd : Nat → Nat)
    (kc k fuel : Nat) (evs : List PlaybackEvent)
    (h : (EventGenerator.create 5 5 T (T + 86400) rnd kc).generate_events
      rnd 50 fuel k = some evs) :
    evs.length = 50 ∧ ∀ e ∈ evs,
      T ≤ e.timestamp ∧ e.timestamp ≤ T + 86400 ∧
      e.user_id ∈ (EventGenerator.create 5 5 T (T + 86400) rnd kc).users.map
        User.user_id ∧
      e.book_id ∈ (EventGenerator.create 5 5 T (T + 86400) rnd kc).books.map
        AudioBook.book_id := by
  refine generateEventsLoop_spec _ _ _ rnd 50
    (fun e => T ≤ e.timestamp ∧ e.timestamp ≤ T + 86400 ∧
      e.user_id ∈ (EventGenerator.create 5 5 T (T + 86400) rnd kc).users.map
        User.user_id ∧
      e.book_id ∈ (EventGenerator.create 5 5 T (T + 86400) rnd kc).books.map
        AudioBook.book_id) ?_ fuel k [] (by simp) (by simp) evs h
  intro user book k0 evs0 k2 hu hb hsess e he
  have hb2 : book ∈ createBooks rnd (kc + 3 * 5) 5 := hb
  obtain ⟨hd1, hd2, hc1, hc2⟩ := createBooks_valid rnd 5 (kc + 3 * 5) book hb2
  have hsess2 : generateUserSession user book T rnd k0 = some (evs0, k2) :=
    hsess
  obtain ⟨evs3, k3, heq, hok⟩ :=
    generateUserSession_ok user book T rnd k0 (by omega) (by omega)
  rw [heq] at hsess2
  injection hsess2 with hsess2
  rw [Prod.mk.injEq] at hsess2
  obtain ⟨rfl, rfl⟩ := hsess2
  obtain ⟨-, -, -, hid1, hid2, hts1, hts2⟩ := hok.ev_ok e he
  refine ⟨hts1, by omega, ?_, ?_⟩
  · rw [hid1]
    exact List.mem_map_of_mem User.user_id hu
  · rw [hid2]
    exact List.mem_map_of_mem AudioBook.book_id hb

/-- The batch of 50 events generated by the example configuration on the
all-twos random stream (each session has exactly 5 events). -/
def demoBatch50 : List PlaybackEvent :=
  ((EventGenerator.create 5 5 0 86400 (fun _ => 2) 0).generate_events
    (fun _ => 2) 50 11 30).getD []

/-- C9 witness: a concrete completing run of the example configuration. -/
theorem claim9_witness : demoBatch50.length = 50 :=
  (claim9_example_config 0 (fun _ => 2) 0 30 11 demoBatch50 rfl).1

/-- C10 (implicit): every generated session holds between 3 and 6 events
(one `START_PLAYBACK`, at most 4 loop events since the target count is
drawn from `[2, 5]`, plus the final `END_PLAYBACK`) — hence every session
appended by `generate_events` contributes between 3 and 6 events. -/
theorem claim10_session_length (user : User) (book : AudioBook)
    (start : Nat) (rnd : Nat → Nat) (k : Nat) (hc : 0 < book.chapters)
    (hcd : book.chapters ≤ book.duration) (evs : List PlaybackEvent)
    (k2 : Nat)
    (h : generateUserSession user book start rnd k = some (evs, k2)) :
    3 ≤ evs.length ∧ evs.length ≤ 6 := by
  obtain ⟨evs2, k3, heq, hok⟩ :=
    generateUserSession_ok user book start rnd k hc hcd
  rw [heq] at h
  injection h with h
  rw [Prod.mk.injEq] at h
  obtain ⟨rfl, rfl⟩ := h
  exact ⟨hok.len_lb, hok.len_ub⟩

/-- C10 witness: the concrete demo session has 3 events. -/
theorem claim10_witness :
    3 ≤ demoPair.1.length ∧ demoPair.1.length ≤ 6 :=
  claim10_session_length demoUser demoBook 0 (fun _ => 0) 0 (by decide)
    (by decide) demoPair.1 demoPair.2 rfl

end AudioSim
